import Mathlib

/-!
Verification of the recursive target-file comparator `catf.py`, against its
natural-language specification.

The program's strings are modelled as `List Char` (`Str`), and every string
primitive the claims depend on (Python slicing, `rfind`, `str.replace`,
`os.path.splitext`, `os.path.basename`, `readlines`, ...) is translated
directly from the CPython semantics the source relies on.  External effects
(shell commands, the `file` type sniffer, extraction back-ends) are modelled
as explicit oracles; `run_shell_command` threads the `all_commands` log
explicitly and returns `Except` in place of raising
`UncomparableFilesException`.

Two places where CPython semantics are under-determined are noted inline:
`list(set(a) - set(b))` iterates a hash set in unspecified order (modelled
here as first-occurrence order; every statement proved below only meets this
construct on lists of at most one element, where the order is irrelevant),
and the `while "//" in s` loop of `get_relative_path` is modelled by its
fixpoint, which collapses each maximal run of slashes to a single slash.
-/

set_option maxRecDepth 4000

namespace Catf

/-- Python strings, modelled as lists of characters. -/
abbrev Str := List Char

/-- Python `s.split(" ")[0]`: the characters before the first space. -/
def word0 (s : Str) : Str := s.takeWhile (fun c => decide (c ≠ ' '))

/-- Python `s.split(" ")[1]`: the characters between the first and second space.
(The source only ever applies this to strings of the form `f1 ++ " " ++ f2`.) -/
def word1of (s : Str) : Str :=
  ((s.dropWhile (fun c => decide (c ≠ ' '))).drop 1).takeWhile (fun c => decide (c ≠ ' '))

/-- The f-string `f"{file1} {file2}"` used throughout the source to encode a file pair. -/
def pairStr (f1 f2 : Str) : Str := f1 ++ ' ' :: f2

/-- Python `s.rfind(ch)`: index of the last occurrence of `ch`, or `-1`. -/
def rfindChar (ch : Char) : Str → Int
  | [] => -1
  | c :: rest =>
    if 0 ≤ rfindChar ch rest then rfindChar ch rest + 1
    else if c = ch then 0 else -1

/-- Python slice `s[i:]` (negative indices count from the end, clamped at 0). -/
def pySliceFrom (s : Str) (i : Int) : Str :=
  if i < 0 then s.drop (s.length + i).toNat else s.drop i.toNat

/-- Python slice `s[:i]` (negative indices count from the end, clamped at 0). -/
def pySliceTo (s : Str) (i : Int) : Str :=
  if i < 0 then s.take (s.length + i).toNat else s.take i.toNat

/-- `extension` (src/catf.py:615): `os.path.splitext(path)[1]`, i.e. the suffix
from the last dot of the path, provided that dot lies after the last `/` and the
basename has a character other than `.` before it (posixpath `_splitext`). -/
def extension (path : Str) : Str :=
  let sepIndex := rfindChar '/' path
  let dotIndex := rfindChar '.' path
  if sepIndex < dotIndex then
    if ((pySliceFrom path (sepIndex + 1)).take (dotIndex - sepIndex - 1).toNat).any
        (fun c => decide (c ≠ '.')) then
      pySliceFrom path dotIndex
    else []
  else []

/-- `get_filename` (src/catf.py:631): `os.path.basename`, the part after the last `/`. -/
def get_filename (path : Str) : Str := pySliceFrom path (rfindChar '/' path + 1)

/-- Python `pat in s` substring test. -/
def isSubstr (pat : Str) : Str → Bool
  | [] => pat.isEmpty
  | c :: rest => pat.isPrefixOf (c :: rest) || isSubstr pat rest

/-- Fuel-driven core of Python `s.replace(old, new)` (all non-overlapping
occurrences, scanning left to right).  The fuel is always instantiated with
`s.length`, which bounds the recursion. -/
def replaceAllFuel (pat rep : Str) : Nat → Str → Str
  | 0, s => s
  | _ + 1, [] => []
  | fuel + 1, c :: rest =>
    if pat ≠ [] ∧ pat.isPrefixOf (c :: rest) then
      rep ++ replaceAllFuel pat rep fuel ((c :: rest).drop pat.length)
    else
      c :: replaceAllFuel pat rep fuel rest

/-- Python `s.replace(pat, rep)`.  (For `pat = ""` the source only ever uses
`rep = ""`, where CPython returns `s` unchanged, as here.) -/
def replaceAll (pat rep s : Str) : Str := replaceAllFuel pat rep s.length s

/-- The fixpoint of the loop `while s.find("//") != -1: s = s.replace("//", "/")`
(src/catf.py:1035): every maximal run of slashes collapses to a single slash. -/
def collapseSlashes : Str → Str
  | [] => []
  | [c] => [c]
  | c :: d :: rest =>
    if c = '/' && d = '/' then collapseSlashes (d :: rest)
    else c :: collapseSlashes (d :: rest)

/-- `remove_newlines` (src/catf.py:744): delete every newline from each string. -/
def remove_newlines (lines : List Str) : List Str :=
  lines.map (fun line => line.filter (fun c => decide (c ≠ '\n')))

/-- First-occurrence deduplication, the deterministic model of Python `set(l)`. -/
def dedupAux (seen : List Str) : List Str → List Str
  | [] => []
  | x :: xs => if x ∈ seen then dedupAux seen xs else x :: dedupAux (seen ++ [x]) xs

/-- Python `list(set(a) - set(b))`.  CPython iterates the set in unspecified
hash order; this model keeps first-occurrence order.  Every proved statement
below meets this construct only on results of at most one element. -/
def pySetDiff (a b : List Str) : List Str :=
  (dedupAux [] a).filter (fun x => decide (x ∉ b))

/-- Python `dict`, insertion-ordered, as used for `all_diffs`. -/
abbrev DiffsMap := List (Str × List Str)

/-- Python `d[k] = v`: overwrite in place if present, else append. -/
def dictSet (m : DiffsMap) (k : Str) (v : List Str) : DiffsMap :=
  if m.any (fun kv => decide (kv.1 = k)) then
    m.map (fun kv => if kv.1 = k then (k, v) else kv)
  else m ++ [(k, v)]

/-- Python `d.update(adds)` for `all_diffs.update(diffs)` (src/catf.py:117). -/
def dictUpdate (m adds : DiffsMap) : DiffsMap :=
  adds.foldl (fun acc kv => dictSet acc kv.1 kv.2) m

/-- The run's configurable globals: `ZIP_FILENAME_1`, `ZIP_FILENAME_2` and
`GRADLEW_PATH` (src/catf.py:38-45), set once from the command line. -/
structure Config where
  zipFilename1 : Str
  zipFilename2 : Str
  gradlewPath : Str

/-- `TMP_DIRECTORY` (src/catf.py:41). -/
def TMP_DIRECTORY : Str := "/tmp".data

/-- `ROOT_COMPARISON` (src/catf.py:42). -/
def ROOT_COMPARISON : Str := TMP_DIRECTORY ++ "/comparison".data

/-- `DIFF_ARGS` (src/catf.py:53). -/
def DIFF_ARGS : Str := "-qraNwB --no-dereference".data

/-- `get_relative_path` (src/catf.py:1000-1042): strip every staging-root and
artifact-identifier substring, collapse repeated slashes, drop one leading slash. -/
def get_relative_path (cfg : Config) (path : Str) : Str :=
  let rpath := replaceAll (TMP_DIRECTORY ++ "/target-files/".data ++ cfg.zipFilename1) [] path
  let rpath := replaceAll (TMP_DIRECTORY ++ "/target-files/".data ++ cfg.zipFilename2) [] rpath
  let rpath := replaceAll (ROOT_COMPARISON ++ "/apks".data) [] rpath
  let rpath := replaceAll (ROOT_COMPARISON ++ "/capex".data) [] rpath
  let rpath := replaceAll (ROOT_COMPARISON ++ "/apex".data) [] rpath
  let rpath := replaceAll (ROOT_COMPARISON ++ "/ext4".data) [] rpath
  let rpath := replaceAll (ROOT_COMPARISON ++ "/lz4".data) [] rpath
  let rpath := replaceAll (ROOT_COMPARISON ++ "/imgs".data) [] rpath
  let rpath := replaceAll (ROOT_COMPARISON ++ "/gz".data) [] rpath
  let rpath := replaceAll (ROOT_COMPARISON ++ "/zip".data) [] rpath
  let rpath := replaceAll cfg.zipFilename1 [] rpath
  let rpath := replaceAll cfg.zipFilename2 [] rpath
  let rpath := replaceAll ROOT_COMPARISON [] rpath
  let rpath := replaceAll "unzip_boot".data [] rpath
  let rpath := collapseSlashes rpath
  if rpath.head? = some '/' then rpath.tail else rpath

/-- `get_new_parent_dir` (src/catf.py:246-265). -/
def get_new_parent_dir (cfg : Config) (path currentParent : Str) : Str :=
  let relativeName := get_relative_path cfg path
  let fname := get_filename path
  let findex := rfindChar '/' currentParent
  let parentFile := pySliceFrom currentParent (findex + 1)
  let parentDir := pySliceTo currentParent findex
  if isSubstr parentFile relativeName then parentDir ++ '/' :: relativeName
  else currentParent ++ '/' :: fname

/-- The payload of an `UncomparableFilesException` raised by
`run_shell_command` (src/catf.py:778-780): the failing command and its exit
status, from which the Python message string is formatted. -/
structure UncErr where
  cmd : Str
  code : Option Int
deriving DecidableEq

/-- Oracle for `os.popen`: the lines a command prints, and the exit status its
`close()` reports (`none` models Python `None`, i.e. success). -/
structure ShellOracle where
  output : Str → List Str
  exitCode : Str → Option Int

/-- `shell_successfull` (src/catf.py:786-797): `diff` and `grep` fail only on
exit status 2, every other program on any nonzero status; `None` is success. -/
def shell_successfull (cmd : Str) (exitCode : Option Int) : Bool :=
  match exitCode with
  | none => true
  | some code =>
    if word0 cmd = "grep".data || word0 cmd = "diff".data then decide (code ≠ 2)
    else decide (code = 0)

/-- `run_shell_command` (src/catf.py:758-783): append the command to the
`all_commands` log, then either return its output and exit status or raise. -/
def run_shell_command (sh : ShellOracle) (cmd : Str) (log : List Str) :
    Except UncErr (List Str × Option Int) × List Str :=
  let log2 := log ++ [cmd]
  let exitCode := sh.exitCode cmd
  if shell_successfull cmd exitCode then (Except.ok (sh.output cmd, exitCode), log2)
  else (Except.error ⟨cmd, exitCode⟩, log2)

/-- `diff` (src/catf.py:802-814): run `diff DIFF_ARGS p1 p2 | awk ...` and
strip newlines from the output lines. -/
def diff (sh : ShellOracle) (path1 path2 : Str) (log : List Str) :
    Except UncErr (List Str) × List Str :=
  let awkCmd := "awk \x27\x7bprint $2 \x22 \x22 $4\x7d\x27".data
  let diffCmd := "diff ".data ++ DIFF_ARGS ++ " ".data ++ path1 ++ " ".data ++ path2
  let fullCmd := diffCmd ++ " | ".data ++ awkCmd
  match run_shell_command sh fullCmd log with
  | (Except.ok out, log2) => (Except.ok (remove_newlines out.1), log2)
  | (Except.error e, log2) => (Except.error e, log2)

/-- Run a list of shell commands in order, stopping at the first failure. -/
def runSeq (sh : ShellOracle) : List Str → List Str → Except UncErr Unit × List Str
  | [], log => (Except.ok (), log)
  | c :: cs, log =>
    match run_shell_command sh c log with
    | (Except.ok _, log2) => runSeq sh cs log2
    | (Except.error e, log2) => (Except.error e, log2)

/-- `extract_7z_files` (src/catf.py:569-597). -/
def extract_7z_files (sh : ShellOracle) (file1 file2 target1 target2 : Str)
    (use_sim2img : Bool) (log : List Str) : Except UncErr Unit × List Str :=
  let file1Fullname := get_filename file1
  let file2Fullname := get_filename file2
  let base : List Str :=
    ["rm -rf ".data ++ target1 ++ " ".data ++ target2,
     "mkdir -p ".data ++ target1 ++ " ".data ++ target2,
     "cp ".data ++ file1 ++ " ".data ++ target1,
     "cp ".data ++ file2 ++ " ".data ++ target2]
  let rest : List Str :=
    if use_sim2img then
      ["cd ".data ++ target1 ++ " && simg2img ".data ++ file1Fullname ++ " ".data ++
         file1Fullname ++ ".iso && 7z -bb0 -bd x ".data ++ file1Fullname ++
         ".iso > /dev/null && rm -f ".data ++ file1Fullname ++ "* *.log".data,
       "cd ".data ++ target2 ++ " && simg2img ".data ++ file2Fullname ++ " ".data ++
         file2Fullname ++ ".iso && 7z -bb0 -bd x ".data ++ file2Fullname ++
         ".iso > /dev/null && rm -f ".data ++ file2Fullname ++ "* *.log".data]
    else
      ["cd ".data ++ target1 ++ " && 7z -bb0 -bd x ".data ++ file1Fullname ++
         " > /dev/null && rm -f ".data ++ file1Fullname ++ " *.log".data,
       "cd ".data ++ target2 ++ " && 7z -bb0 -bd x ".data ++ file2Fullname ++
         " > /dev/null && rm -f ".data ++ file2Fullname ++ " *.log".data,
       "rm -f ".data ++ target1 ++ "/*.log ".data ++ target2 ++ "/*.log".data]
  runSeq sh (base ++ rest) log

/-- `compare_image_files` (src/catf.py:284-343): skip `userdata.img` outright;
unpack `ramdisk.img`, `product.img` and `system.img` with 7z (with a sparse
conversion for the latter two); unpack everything else with the gradlew
boot-image editor; then diff the two staging directories. -/
def compare_image_files (sh : ShellOracle) (cfg : Config) (img1 img2 : Str)
    (log : List Str) : Except UncErr (List Str) × List Str :=
  let imgfile := get_filename img1
  let img1Dst := ROOT_COMPARISON ++ "/imgs/".data ++ imgfile ++ "/".data ++ cfg.zipFilename1
  let img2Dst := ROOT_COMPARISON ++ "/imgs/".data ++ imgfile ++ "/".data ++ cfg.zipFilename2
  if imgfile = "userdata.img".data then (Except.ok [], log)
  else if imgfile = "ramdisk.img".data || imgfile = "product.img".data ||
      imgfile = "system.img".data then
    let useSim2img := decide (imgfile ≠ "ramdisk.img".data)
    match extract_7z_files sh img1 img2 img1Dst img2Dst useSim2img log with
    | (Except.ok _, log2) => diff sh img1Dst img2Dst log2
    | (Except.error e, log2) => (Except.error e, log2)
  else
    let gradlew := cfg.gradlewPath
    let gradlewBin := gradlew ++ "/gradlew".data
    let gradlewBuild := gradlew ++ "/build/unzip_boot/".data
    let rmGradlewLog := "rm -f ".data ++ gradlew ++ "/build/unzip_boot/*.log".data
    let cmds : List Str :=
      ["rm -rf ".data ++ img1Dst ++ " ".data ++ img2Dst,
       "mkdir -p ".data ++ img1Dst ++ " ".data ++ img2Dst,
       "rm -f ".data ++ gradlew ++ "/*.img && cp ".data ++ img1 ++ " ~/gradlew".data,
       "cd ".data ++ gradlew ++ " && ".data ++ gradlewBin ++ " unpack 2> /dev/null && ".data ++
         rmGradlewLog,
       "mv ".data ++ gradlewBuild ++ " ".data ++ img1Dst,
       "rm -f ".data ++ gradlew ++ "/*.img && cp ".data ++ img2 ++ " ~/gradlew".data,
       "cd ".data ++ gradlew ++ " && ".data ++ gradlewBin ++ " unpack 2> /dev/null && ".data ++
         rmGradlewLog,
       "mv ".data ++ gradlewBuild ++ " ".data ++ img2Dst,
       "rm -f ".data ++ gradlew ++ "/*.img".data]
    match runSeq sh cmds log with
    | (Except.ok _, log2) => diff sh img1Dst img2Dst log2
    | (Except.error e, log2) => (Except.error e, log2)

/-- `extractable_extensions` (src/catf.py:273). -/
def extractable_extensions : List Str :=
  [".apex".data, ".capex".data, ".img".data, ".apk".data,
   ".zip".data, ".gz".data, ".lz4".data, ".ext4".data]

/-- `can_extract_further` (src/catf.py:268-282): the sub-list of file pairs
whose first file carries a further-extractable extension. -/
def can_extract_further (diffs : List Str) : List Str :=
  diffs.filter (fun filePair => decide (extension (word0 filePair) ∈ extractable_extensions))

/-- The two mutable globals the recursive comparator threads through a run:
the `all_diffs` dict it fills in and the `apk_files` location index. -/
structure CState where
  allDiffs : DiffsMap
  apkFiles : List Str
deriving DecidableEq

/-- The ways `compare_files_recursive` can fail to return: running out of the
fuel that models Python's unbounded recursion, the `sys.exit(1)` on an
extension mismatch, and a propagating `UncomparableFilesException`. -/
inductive RunErr where
  | fuelOut : RunErr
  | fatalExit : RunErr
  | uncomparable : UncErr → RunErr
deriving DecidableEq

/-- Environment of `compare_files_recursive`: the configuration, the
`is_text_file` sniffer, the `uncomparable_files` global it reads, and one
oracle per format-specific extraction strategy (each of which returns the
list of differing pairs found inside the extracted trees, or raises). -/
structure Env where
  cfg : Config
  isTextFile : Str → Bool
  uncomparableFiles : List Str
  compareImage : Str → Str → Except UncErr (List Str)
  compareApex : Str → Str → Except UncErr (List Str)
  compareCapex : Str → Str → Except UncErr (List Str)
  compareApk : Str → Str → Except UncErr (List Str)
  compareZip : Str → Str → Except UncErr (List Str)
  compareGz : Str → Str → Except UncErr (List Str)
  compareLz4 : Str → Str → Except UncErr (List Str)
  compareExt4 : Str → Str → Except UncErr (List Str)

/-- Result of one `compare_files_recursive` call: the threaded state plus the
Python return value `(parent_dir-or-None, diffs)`. -/
abbrev CResult := CState × Option Str × List Str

/-- The `for file_pair in new_diffs_to_compare` loop of
`compare_files_recursive` (src/catf.py:236-242), with the recursive call
abstracted as `recur`; accumulates `new_diffs`. -/
def cfrLoop (recur : Str → Str → Str → CState → Except RunErr CResult)
    (cfg : Config) (parentDir : Str) :
    List Str → CState → Except RunErr (CState × List Str)
  | [], st => Except.ok (st, [])
  | filePair :: rest, st =>
    let f1 := word0 filePair
    let f2 := word1of filePair
    let newParent := get_new_parent_dir cfg f1 parentDir
    match recur f1 f2 newParent st with
    | Except.error e => Except.error e
    | Except.ok r =>
      match cfrLoop recur cfg parentDir rest r.1 with
      | Except.error e => Except.error e
      | Except.ok r2 => Except.ok (r2.1, r.2.2 ++ r2.2)

/-- The common tail of `compare_files_recursive` after `diffs` is computed
(src/catf.py:216-244): partition into further-extractable pairs, record the
rest under the current parent, and recurse into the extractable ones. -/
def cfrTail (recur : Str → Str → Str → CState → Except RunErr CResult)
    (cfg : Config) (uncomparableFiles : List Str) (parentDir : Str)
    (st : CState) (diffs : List Str) : Except RunErr CResult :=
  let furtherExtractable := can_extract_further diffs
  let newDiffsToCompare := pySetDiff furtherExtractable uncomparableFiles
  let previousDiffs := pySetDiff diffs newDiffsToCompare
  let st1 := if previousDiffs.length > 0 then
      { st with allDiffs := dictSet st.allDiffs parentDir previousDiffs }
    else st
  if newDiffsToCompare.length = 0 then Except.ok (st1, some parentDir, diffs)
  else
    match cfrLoop recur cfg parentDir newDiffsToCompare st1 with
    | Except.error e => Except.error e
    | Except.ok r => Except.ok (r.1, none, previousDiffs ++ r.2)

/-- `compare_files_recursive` (src/catf.py:162-244), with a fuel parameter in
place of Python's unbounded call stack.  Strategy calls go through the `Env`
oracles; state that Python mutates in globals (`all_diffs` via the caller's
dict, `apk_files`) is threaded through `CState`.  Global writes that precede
an abort are discarded along with the abort, which no settled claim observes. -/
def compare_files_recursive (env : Env) : Nat → Str → Str → Str → CState →
    Except RunErr CResult
  | 0 => fun _ _ _ _ => Except.error RunErr.fuelOut
  | fuel + 1 => fun file1 file2 parentDir st =>
    let ext1 := extension file1
    let ext2 := extension file2
    let ext := ext1.drop 1
    if ext1 = ext2 then
      let recur := compare_files_recursive env fuel
      let tailWith : CState → List Str → Except RunErr CResult :=
        cfrTail recur env.cfg env.uncomparableFiles parentDir
      if ext = "img".data then
        match env.compareImage file1 file2 with
        | Except.error e => Except.error (RunErr.uncomparable e)
        | Except.ok diffs => tailWith st diffs
      else if env.isTextFile file1 then
        tailWith st [pairStr file1 file2]
      else if ext = "apex".data then
        match env.compareApex file1 file2 with
        | Except.error e => Except.error (RunErr.uncomparable e)
        | Except.ok diffs => tailWith st diffs
      else if ext = "capex".data then
        match env.compareCapex file1 file2 with
        | Except.error e => Except.error (RunErr.uncomparable e)
        | Except.ok diffs => tailWith st diffs
      else if ext = "apk".data then
        match env.compareApk file1 file2 with
        | Except.error e => Except.error (RunErr.uncomparable e)
        | Except.ok diffs =>
          tailWith { st with apkFiles := st.apkFiles ++ [pairStr file1 file2] } diffs
      else if ext = "zip".data then
        match env.compareZip file1 file2 with
        | Except.error e => Except.error (RunErr.uncomparable e)
        | Except.ok diffs => tailWith st diffs
      else if ext = "gz".data then
        match env.compareGz file1 file2 with
        | Except.error e => Except.error (RunErr.uncomparable e)
        | Except.ok diffs => tailWith st diffs
      else if ext = "lz4".data then
        match env.compareLz4 file1 file2 with
        | Except.error e => Except.error (RunErr.uncomparable e)
        | Except.ok diffs => tailWith st diffs
      else if ext = "ext4".data then
        match env.compareExt4 file1 file2 with
        | Except.error e => Except.error (RunErr.uncomparable e)
        | Except.ok diffs => tailWith st diffs
      else
        Except.ok ({ st with allDiffs := dictSet st.allDiffs parentDir [pairStr file1 file2] },
          some parentDir, [pairStr file1 file2])
    else Except.error RunErr.fatalExit

/-- Outcome of the `for file_pair in initial_diff` loop of
`compare_target_files`: either the loop finished with the accumulated
`all_diffs`, or `sys.exit(1)` stopped the run. -/
inductive LoopResult where
  | finished : DiffsMap → LoopResult
  | exited : LoopResult
deriving DecidableEq

/-- The `for file_pair in initial_diff` loop of `compare_target_files`
(src/catf.py:110-122), with `compare_files` abstracted as `cmp`: on success
merge the returned dict into `all_diffs`; on `UncomparableFilesException`
append the pair to `uncomparable_files` and stop the run. -/
def compare_target_files_loop (cfg : Config)
    (cmp : Str → Str → Str → Except UncErr DiffsMap) :
    List Str → DiffsMap → List Str → LoopResult × List Str
  | [], allDiffs, unc => (LoopResult.finished allDiffs, unc)
  | filePair :: rest, allDiffs, unc =>
    let f1 := word0 filePair
    let f2 := word1of filePair
    let parentDir := get_relative_path cfg f1
    match cmp f1 f2 parentDir with
    | Except.ok diffs => compare_target_files_loop cfg cmp rest (dictUpdate allDiffs diffs) unc
    | Except.error _ => (LoopResult.exited, unc ++ [pairStr f1 f2])

/-- The first pair of the initial diff list on which `compare_files` raises,
if any. -/
def first_failing (cfg : Config) (cmp : Str → Str → Str → Except UncErr DiffsMap) :
    List Str → Option Str
  | [] => none
  | filePair :: rest =>
    match cmp (word0 filePair) (word1of filePair) (get_relative_path cfg (word0 filePair)) with
    | Except.ok _ => first_failing cfg cmp rest
    | Except.error _ => some filePair

/-- A file's byte contents, or `none` when no file exists at the path. -/
abbrev FileSys := Str → Option (List Nat)

/-- One entry of the merged difference list: `(path, file1, file2)`
(src/catf.py:1079). -/
structure LeafTuple where
  path : Str
  file1 : Str
  file2 : Str
deriving DecidableEq

/-- `files_are_equal` (src/catf.py:656-664): `filecmp.cmp(..., shallow=False)`,
with `FileNotFoundError` caught and turned into `False`. -/
def files_are_equal (fs : FileSys) (f1 f2 : Str) : Bool :=
  match fs f1, fs f2 with
  | some c1, some c2 => decide (c1 = c2)
  | _, _ => false

/-- `inside_unique_list` (src/catf.py:1230-1238). -/
def inside_unique_list (fs : FileSys) (uniqueFiles : List Str) (pathToCompare : Str) : Bool :=
  uniqueFiles.any (fun u => files_are_equal fs u pathToCompare)

/-- The loop of `filter_duplicates` (src/catf.py:1216-1225) with the two
accumulators `unique_files1` and `unique_files2` explicit. -/
def filter_duplicates_aux (fs : FileSys) : List LeafTuple → List Str → List Str → List LeafTuple
  | [], _, _ => []
  | t :: rest, u1, u2 =>
    if !(inside_unique_list fs u1 t.file1) && !(inside_unique_list fs u2 t.file2) then
      t :: filter_duplicates_aux fs rest (u1 ++ [t.file1]) (u2 ++ [t.file2])
    else filter_duplicates_aux fs rest u1 u2

/-- `filter_duplicates` (src/catf.py:1207-1227). -/
def filter_duplicates (fs : FileSys) (filesToFilter : List LeafTuple) : List LeafTuple :=
  filter_duplicates_aux fs filesToFilter [] []

/-- Python `readlines`: split into lines, each keeping its terminating
newline, the last line possibly unterminated. `breakLine` yields the first
line and the remainder; the fuel is instantiated with the string's length. -/
def breakLine : Str → Str × Str
  | [] => ([], [])
  | c :: rest =>
    if c = '\n' then ([c], rest)
    else
      let r := breakLine rest
      (c :: r.1, r.2)

/-- Fuel-driven splitting of a string into its lines. -/
def readlinesFuel : Nat → Str → List Str
  | 0, _ => []
  | fuel + 1, s =>
    match s with
    | [] => []
    | c :: rest =>
      let r := breakLine (c :: rest)
      r.1 :: readlinesFuel fuel r.2

/-- `read_from_file` (src/catf.py:683-690) applied to a file's contents. -/
def readlines (s : Str) : List Str := readlinesFuel s.length s

/-- Python string comparison used by `list.sort()`: lexicographic by code
point, a shorter string preceding its extensions. -/
def strLe : Str → Str → Bool
  | [], _ => true
  | _ :: _, [] => false
  | a :: as, b :: bs => if a = b then strLe as bs else decide (a < b)

/-- Insert into a `strLe`-sorted list, keeping it sorted. -/
def insertSorted (x : Str) : List Str → List Str
  | [] => [x]
  | y :: ys => if strLe x y then x :: y :: ys else y :: insertSorted x ys

/-- Python `list.sort()` on strings.  Because `strLe` is antisymmetric the
sorted arrangement of a multiset of lines is unique, so any correct sort
models CPython's sort exactly. -/
def pySort (l : List Str) : List Str := List.foldr insertSorted [] l

/-- `sort_files` (src/catf.py:722-734) as a pure function from the two files'
contents to the contents written back: each side's lines sorted and rejoined
with `"".join`. -/
def sort_files (content1 content2 : Str) : Str × Str :=
  ((pySort (readlines content1)).flatten, (pySort (readlines content2)).flatten)

/-! Helper lemmas. -/

theorem word0_pairStr (f1 f2 : Str) (h : ' ' ∉ f1) : word0 (pairStr f1 f2) = f1 := by
  induction f1 with
  | nil => simp [word0, pairStr]
  | cons c cs ih =>
    have hc : c ≠ ' ' := fun hcc => h (hcc ▸ List.mem_cons_self c cs)
    have hcs : ' ' ∉ cs := fun hm => h (List.mem_cons_of_mem c hm)
    simpa [word0, pairStr, hc] using ih hcs

theorem pySetDiff_nil (b : List Str) : pySetDiff [] b = [] := rfl

theorem pySetDiff_single_nil (x : Str) : pySetDiff [x] [] = [x] := by
  simp [pySetDiff, dedupAux]

/-! Theorems for the claims. -/

/-- C4: a file pair whose extensions differ makes `compare_files_recursive`
fail fatally (`sys.exit(1)`), before classifying, extracting, or yielding any
leaf difference for the pair. -/
theorem c4_extension_mismatch_fatal (env : Env) (fuel : Nat)
    (file1 file2 parentDir : Str) (st : CState)
    (h : extension file1 ≠ extension file2) :
    compare_files_recursive env (fuel + 1) file1 file2 parentDir st =
      Except.error RunErr.fatalExit := by
  simp only [compare_files_recursive]
  rw [if_neg h]

/-- C4 witness: a `.zip`/`.img` pair aborts fatally. -/
theorem c4_extension_mismatch_fatal_witness :
    compare_files_recursive
      ⟨⟨"A.zip".data, "B.zip".data, "~/gradlew".data⟩, fun _ => false, [],
        fun _ _ => Except.ok [], fun _ _ => Except.ok [], fun _ _ => Except.ok [],
        fun _ _ => Except.ok [], fun _ _ => Except.ok [], fun _ _ => Except.ok [],
        fun _ _ => Except.ok [], fun _ _ => Except.ok []⟩
      3 ("/t/k.zip".data) ("/u/k.img".data) ("IMAGES".data) ⟨[], []⟩ =
      Except.error RunErr.fatalExit :=
  c4_extension_mismatch_fatal _ 2 _ _ _ _ (by decide)

/-- C5: a file pair whose shared extension matches no strategy and whose first
file is not a text file is recorded as a leaf difference under the current
logical parent path, and `compare_files_recursive` returns normally with just
that pair, touching no extraction strategy and never aborting. -/
theorem c5_unsupported_extension_leaf (env : Env) (fuel : Nat)
    (file1 file2 parentDir : Str) (st : CState)
    (hext : extension file1 = extension file2)
    (htxt : env.isTextFile file1 = false)
    (himg : (extension file1).drop 1 ≠ "img".data)
    (hapex : (extension file1).drop 1 ≠ "apex".data)
    (hcapex : (extension file1).drop 1 ≠ "capex".data)
    (hapk : (extension file1).drop 1 ≠ "apk".data)
    (hzip : (extension file1).drop 1 ≠ "zip".data)
    (hgz : (extension file1).drop 1 ≠ "gz".data)
    (hlz4 : (extension file1).drop 1 ≠ "lz4".data)
    (hext4 : (extension file1).drop 1 ≠ "ext4".data) :
    compare_files_recursive env (fuel + 1) file1 file2 parentDir st =
      Except.ok
        ({ st with allDiffs := dictSet st.allDiffs parentDir [pairStr file1 file2] },
          some parentDir, [pairStr file1 file2]) := by
  simp only [compare_files_recursive]
  rw [if_pos hext]
  simp only [if_neg himg, htxt, Bool.false_eq_true, if_false, if_neg hapex, if_neg hcapex,
    if_neg hapk, if_neg hzip, if_neg hgz, if_neg hlz4, if_neg hext4]

/-- C5 witness: a non-text `.foo` pair becomes a literal leaf difference. -/
theorem c5_unsupported_extension_leaf_witness :
    compare_files_recursive
      ⟨⟨"A.zip".data, "B.zip".data, "~/gradlew".data⟩, fun _ => false, [],
        fun _ _ => Except.ok [], fun _ _ => Except.ok [], fun _ _ => Except.ok [],
        fun _ _ => Except.ok [], fun _ _ => Except.ok [], fun _ _ => Except.ok [],
        fun _ _ => Except.ok [], fun _ _ => Except.ok []⟩
      1 ("/t/k.foo".data) ("/u/k.foo".data) ("SYSTEM/k.foo".data) ⟨[], []⟩ =
      Except.ok
        (⟨dictSet [] ("SYSTEM/k.foo".data) [pairStr ("/t/k.foo".data) ("/u/k.foo".data)], []⟩,
          some ("SYSTEM/k.foo".data), [pairStr ("/t/k.foo".data) ("/u/k.foo".data)]) :=
  c5_unsupported_extension_leaf _ 0 _ _ _ _ (by decide) rfl (by decide) (by decide)
    (by decide) (by decide) (by decide) (by decide) (by decide) (by decide)

/-- C10: `run_shell_command` raises exactly when the exit status is not `None`
and abnormal, where abnormal means status 2 for a command whose first word is
`diff` or `grep` and any nonzero status for every other program; in
particular a `diff` exiting 1 returns normally. -/
theorem c10_shell_success_criterion :
    (∀ (sh : ShellOracle) (cmd : Str) (log : List Str),
      (∃ e, (run_shell_command sh cmd log).1 = Except.error e) ↔
      (∃ c, sh.exitCode cmd = some c ∧
        ((word0 cmd = "diff".data ∨ word0 cmd = "grep".data) → c = 2) ∧
        (¬ (word0 cmd = "diff".data ∨ word0 cmd = "grep".data) → c ≠ 0))) ∧
    (∀ (sh : ShellOracle) (cmd : Str) (log : List Str),
      word0 cmd = "diff".data → sh.exitCode cmd = some 1 →
      (run_shell_command sh cmd log).1 = Except.ok (sh.output cmd, some 1)) := by
  have key : ∀ (cmd : Str) (code : Option Int),
      shell_successfull cmd code = false ↔
      (∃ c, code = some c ∧
        ((word0 cmd = "diff".data ∨ word0 cmd = "grep".data) → c = 2) ∧
        (¬ (word0 cmd = "diff".data ∨ word0 cmd = "grep".data) → c ≠ 0)) := by
    intro cmd code
    cases code with
    | none => simp [shell_successfull]
    | some c0 =>
      by_cases hg : word0 cmd = "grep".data
      · simp [shell_successfull, hg]
      · by_cases hd : word0 cmd = "diff".data
        · simp [shell_successfull, hg, hd]
        · simp [shell_successfull, hg, hd]
  constructor
  · intro sh cmd log
    rw [← key cmd (sh.exitCode cmd)]
    simp only [run_shell_command]
    by_cases hs : shell_successfull cmd (sh.exitCode cmd)
    · simp [hs]
    · simp [hs, Bool.not_eq_true] at *
  · intro sh cmd log hword hcode
    simp [run_shell_command, shell_successfull, hcode, hword]

/-- C3: whenever a command exits abnormally per the success criterion,
`run_shell_command` raises instead of returning; the top-level comparison
loop then records exactly that file pair in `uncomparable_files` and stops
(`LoopResult.exited`), and nothing is ever added to `uncomparable_files` in
any other way: the final set is the initial one plus at most the first
failing pair, and it is unchanged whenever the loop finishes normally. -/
theorem c3_abnormal_exit_recorded_uncomparable :
    (∀ (sh : ShellOracle) (cmd : Str) (log : List Str),
      shell_successfull cmd (sh.exitCode cmd) = false →
      (run_shell_command sh cmd log).1 = Except.error ⟨cmd, sh.exitCode cmd⟩) ∧
    (∀ (cfg : Config) (cmp : Str → Str → Str → Except UncErr DiffsMap)
      (pairs : List Str) (allDiffs : DiffsMap) (unc : List Str),
      (compare_target_files_loop cfg cmp pairs allDiffs unc).2 =
        unc ++ (match first_failing cfg cmp pairs with
                | none => []
                | some fp => [pairStr (word0 fp) (word1of fp)]) ∧
      ((compare_target_files_loop cfg cmp pairs allDiffs unc).1 = LoopResult.exited ↔
        (first_failing cfg cmp pairs).isSome = true)) := by
  constructor
  · intro sh cmd log h
    simp [run_shell_command, h]
  · intro cfg cmp pairs
    induction pairs with
    | nil =>
      intro allDiffs unc
      simp [compare_target_files_loop, first_failing]
    | cons fp rest ih =>
      intro allDiffs unc
      simp only [compare_target_files_loop, first_failing]
      cases hc : cmp (word0 fp) (word1of fp) (get_relative_path cfg (word0 fp)) with
      | ok d => simpa [hc] using ih (dictUpdate allDiffs d) unc
      | error e => simp [hc]

/-- C3 witness: a failing `cp` raises, and a loop whose comparator raises on
its only pair stops with exactly that pair recorded as uncomparable. -/
theorem c3_abnormal_exit_recorded_uncomparable_witness :
    (run_shell_command ⟨fun _ => [], fun _ => some 1⟩ ("cp a b".data) []).1 =
      Except.error ⟨"cp a b".data, some 1⟩ ∧
    (compare_target_files_loop ⟨"A.zip".data, "B.zip".data, "~/gradlew".data⟩
        (fun _ _ _ => Except.error ⟨"cmd".data, some 1⟩) ["x y".data] [] []).2 =
      [] ++ [pairStr ("x".data) ("y".data)] ∧
    (compare_target_files_loop ⟨"A.zip".data, "B.zip".data, "~/gradlew".data⟩
        (fun _ _ _ => Except.error ⟨"cmd".data, some 1⟩) ["x y".data] [] []).1 =
      LoopResult.exited := by
  refine ⟨c3_abnormal_exit_recorded_uncomparable.1 _ _ [] (by decide), ?_, ?_⟩
  · have h := (c3_abnormal_exit_recorded_uncomparable.2
      ⟨"A.zip".data, "B.zip".data, "~/gradlew".data⟩
      (fun _ _ _ => Except.error ⟨"cmd".data, some 1⟩) ["x y".data] [] []).1
    rw [h]; decide
  · have h := (c3_abnormal_exit_recorded_uncomparable.2
      ⟨"A.zip".data, "B.zip".data, "~/gradlew".data⟩
      (fun _ _ _ => Except.error ⟨"cmd".data, some 1⟩) ["x y".data] [] []).2
    rw [h]; decide

/-- C6: an image pair named `userdata.img` makes `compare_image_files` return
the empty difference list while running no shell command at all (the command
log is unchanged), and the comparator node built on it yields no leaf
differences: the state is untouched and the returned diff list is empty. -/
theorem c6_userdata_img_skipped (sh : ShellOracle) (cfg : Config) (env : Env)
    (fuel : Nat) (img1 img2 parentDir : Str) (st : CState) (log : List Str)
    (hname : get_filename img1 = "userdata.img".data)
    (hext1 : extension img1 = ".img".data)
    (hext2 : extension img2 = ".img".data)
    (henv : env.compareImage = fun a b => (compare_image_files sh cfg a b []).1) :
    compare_image_files sh cfg img1 img2 log = (Except.ok [], log) ∧
    compare_files_recursive env (fuel + 1) img1 img2 parentDir st =
      Except.ok (st, some parentDir, []) := by
  have himg : ∀ lg : List Str, compare_image_files sh cfg img1 img2 lg = (Except.ok [], lg) := by
    intro lg
    simp [compare_image_files, hname]
  refine ⟨himg log, ?_⟩
  simp only [compare_files_recursive]
  rw [if_pos (hext1.trans hext2.symm)]
  have hdrop : (extension img1).drop 1 = "img".data := by rw [hext1]; decide
  rw [if_pos hdrop, henv]
  have h0 : (compare_image_files sh cfg img1 img2 []).1 = Except.ok [] := by rw [himg []]
  simp only [h0]
  simp [cfrTail, can_extract_further, pySetDiff, dedupAux]

/-- C6 witness: a concrete `userdata.img` pair is skipped with no commands
run and yields no leaves. -/
theorem c6_userdata_img_skipped_witness :
    compare_image_files ⟨fun _ => [], fun _ => none⟩
      ⟨"A.zip".data, "B.zip".data, "~/gradlew".data⟩
      ("/t/IMAGES/userdata.img".data) ("/u/IMAGES/userdata.img".data)
      ["previous".data] = (Except.ok [], ["previous".data]) ∧
    compare_files_recursive
      ⟨⟨"A.zip".data, "B.zip".data, "~/gradlew".data⟩, fun _ => false, [],
        (fun a b => (compare_image_files ⟨fun _ => [], fun _ => none⟩
          ⟨"A.zip".data, "B.zip".data, "~/gradlew".data⟩ a b []).1),
        fun _ _ => Except.ok [], fun _ _ => Except.ok [], fun _ _ => Except.ok [],
        fun _ _ => Except.ok [], fun _ _ => Except.ok [], fun _ _ => Except.ok [],
        fun _ _ => Except.ok []⟩
      1 ("/t/IMAGES/userdata.img".data) ("/u/IMAGES/userdata.img".data)
      ("IMAGES/userdata.img".data) ⟨[], []⟩ =
      Except.ok (⟨[], []⟩, some ("IMAGES/userdata.img".data), []) :=
  c6_userdata_img_skipped _ _ _ 0 _ _ _ _ _ (by decide) (by decide) (by decide) rfl

/-- The loop of `filter_duplicates` drops and re-adds nothing when replayed on
its own output with the same starting accumulators. -/
theorem filter_duplicates_aux_idem (fs : FileSys) (l : List LeafTuple) :
    ∀ u1 u2, filter_duplicates_aux fs (filter_duplicates_aux fs l u1 u2) u1 u2 =
      filter_duplicates_aux fs l u1 u2 := by
  induction l with
  | nil => intro u1 u2; rfl
  | cons t rest ih =>
    intro u1 u2
    by_cases h : (!(inside_unique_list fs u1 t.file1) &&
        !(inside_unique_list fs u2 t.file2)) = true
    · have e1 : filter_duplicates_aux fs (t :: rest) u1 u2 =
          t :: filter_duplicates_aux fs rest (u1 ++ [t.file1]) (u2 ++ [t.file2]) := by
        rw [filter_duplicates_aux, if_pos h]
      rw [e1]
      rw [filter_duplicates_aux, if_pos h, ih]
    · have e1 : filter_duplicates_aux fs (t :: rest) u1 u2 =
          filter_duplicates_aux fs rest u1 u2 := by
        rw [filter_duplicates_aux, if_neg h]
      rw [e1, ih]

/-- C8: `filter_duplicates` is idempotent (file contents fixed for the run). -/
theorem c8_filter_duplicates_idempotent (fs : FileSys) (l : List LeafTuple) :
    filter_duplicates fs (filter_duplicates fs l) = filter_duplicates fs l :=
  filter_duplicates_aux_idem fs l [] []

/-- The deduplication rule `filter_duplicates` actually implements, stated
over the list of kept tuples: a tuple is dropped when its side-1 file is
byte-identical to the side-1 file of some earlier kept tuple, or its side-2
file is byte-identical to the side-2 file of some (possibly different)
earlier kept tuple. -/
def filter_duplicates_amended (fs : FileSys) (kept : List LeafTuple) :
    List LeafTuple → List LeafTuple
  | [] => []
  | t :: rest =>
    if (kept.any fun u => files_are_equal fs u.file1 t.file1) ||
        (kept.any fun u => files_are_equal fs u.file2 t.file2) then
      filter_duplicates_amended fs kept rest
    else t :: filter_duplicates_amended fs (kept ++ [t]) rest

/-- Modelled from claim C1's words, not from the source: keep each tuple
unless both of its files are byte-identical to the corresponding files of a
single earlier-seen kept tuple. -/
def filter_duplicates_claimC1 (fs : FileSys) (kept : List LeafTuple) :
    List LeafTuple → List LeafTuple
  | [] => []
  | t :: rest =>
    if kept.any (fun u => files_are_equal fs u.file1 t.file1 &&
        files_are_equal fs u.file2 t.file2) then
      filter_duplicates_claimC1 fs kept rest
    else t :: filter_duplicates_claimC1 fs (kept ++ [t]) rest

theorem any_map_general {α β : Type} (f : α → β) (l : List α) (p : β → Bool) :
    (l.map f).any p = l.any (fun a => p (f a)) := by
  induction l with
  | nil => rfl
  | cons a l ih => simp [ih]

theorem filter_duplicates_aux_eq_amended (fs : FileSys) (l : List LeafTuple) :
    ∀ kept : List LeafTuple,
      filter_duplicates_aux fs l (kept.map LeafTuple.file1) (kept.map LeafTuple.file2) =
        filter_duplicates_amended fs kept l := by
  induction l with
  | nil => intro kept; rfl
  | cons t rest ih =>
    intro kept
    have h1 : inside_unique_list fs (kept.map LeafTuple.file1) t.file1 =
        kept.any (fun u => files_are_equal fs u.file1 t.file1) := by
      simp [inside_unique_list, any_map_general]
    have h2 : inside_unique_list fs (kept.map LeafTuple.file2) t.file2 =
        kept.any (fun u => files_are_equal fs u.file2 t.file2) := by
      simp [inside_unique_list, any_map_general]
    rw [filter_duplicates_aux, filter_duplicates_amended, h1, h2]
    cases hA : (kept.any fun u => files_are_equal fs u.file1 t.file1) with
    | true =>
      simpa [hA] using ih kept
    | false =>
      cases hB : (kept.any fun u => files_are_equal fs u.file2 t.file2) with
      | true =>
        simpa [hA, hB] using ih kept
      | false =>
        simpa [hA, hB, List.map_append] using ih (kept ++ [t])

/-- C1 (amended): `filter_duplicates` keeps a tuple if and only if neither its
side-1 file is byte-identical to the side-1 file of an earlier kept tuple nor
its side-2 file is byte-identical to the side-2 file of an earlier kept tuple
(the two matches may come from different kept tuples); equivalently it equals
`filter_duplicates_amended` started with no kept tuples. -/
theorem c1_filter_duplicates_or_semantics (fs : FileSys) (l : List LeafTuple) :
    filter_duplicates fs l = filter_duplicates_amended fs [] l :=
  filter_duplicates_aux_eq_amended fs l []

/-- The file system of the C1 counterexample. -/
def fsC1 : FileSys := fun p =>
  if p = "a".data then some [1] else if p = "b".data then some [2]
  else if p = "c".data then some [3] else none

/-- The input list of the C1 counterexample: the second tuple repeats the
side-1 file but has a fresh side-2 file. -/
def c1Input : List LeafTuple :=
  [⟨"p".data, "a".data, "b".data⟩, ⟨"q".data, "a".data, "c".data⟩]

/-- C1 counterexample: the code drops the second tuple although only its
side-1 file matches the earlier pair (its side-2 file matches nothing), so
the drop-iff-both-files-match rule of the claim predicts a different output
than `filter_duplicates` produces. -/
theorem c1_filter_duplicates_counterexample :
    filter_duplicates fsC1 c1Input = [⟨"p".data, "a".data, "b".data⟩] ∧
    filter_duplicates_claimC1 fsC1 [] c1Input =
      [⟨"p".data, "a".data, "b".data⟩, ⟨"q".data, "a".data, "c".data⟩] ∧
    filter_duplicates fsC1 c1Input ≠ filter_duplicates_claimC1 fsC1 [] c1Input :=
  ⟨by decide, by decide, by decide⟩

/-- Shared concrete configuration for witnesses and counterexamples. -/
def cfgA : Config := ⟨"A.zip".data, "B.zip".data, "~/gradlew".data⟩

/-- Environment whose content sniffer classifies every file as plain text and
whose strategy oracles all report no internal differences. -/
def envC2 : Env :=
  ⟨cfgA, fun _ => true, [],
    fun _ _ => Except.ok [], fun _ _ => Except.ok [], fun _ _ => Except.ok [],
    fun _ _ => Except.ok [], fun _ _ => Except.ok [], fun _ _ => Except.ok [],
    fun _ _ => Except.ok [], fun _ _ => Except.ok []⟩

/-- C2 counterexample: a pair of text-classified files named `x.zip` does not
become Terminal — `can_extract_further` re-captures the pair by its `.zip`
extension and the comparator recurses on the same pair, so with any fuel the
call only ever runs out of fuel (the Python original recurses without bound)
instead of returning the single recorded leaf the claim predicts. -/
theorem c2_plain_text_counterexample :
    compare_files_recursive envC2 4 ("/t/x.zip".data) ("/u/x.zip".data)
        ("SYSTEM/x.zip".data) ⟨[], []⟩ = Except.error RunErr.fuelOut ∧
    (Except.error RunErr.fuelOut : Except RunErr CResult) ≠
      Except.ok
        (⟨dictSet [] ("SYSTEM/x.zip".data)
            [pairStr ("/t/x.zip".data) ("/u/x.zip".data)], []⟩,
          some ("SYSTEM/x.zip".data),
          [pairStr ("/t/x.zip".data) ("/u/x.zip".data)]) :=
  ⟨rfl, fun hcontra => Except.noConfusion hcontra⟩

/-- C2 (amended): for a pair sharing an extension other than `.img` that is
also not one of the further-extractable extensions, with the first file
classified plain-text (and its path free of spaces, which the pair encoding
requires), the node is immediately Terminal: it records exactly the pair
itself under the current logical parent path and returns it as the sole leaf
difference, at any fuel, with no strategy invoked and no recursion. -/
theorem c2_plain_text_terminal (env : Env) (fuel : Nat)
    (file1 file2 parentDir : Str) (st : CState)
    (hext : extension file1 = extension file2)
    (himg : (extension file1).drop 1 ≠ "img".data)
    (htxt : env.isTextFile file1 = true)
    (hnx : extension file1 ∉ extractable_extensions)
    (hsp : ' ' ∉ file1) :
    compare_files_recursive env (fuel + 1) file1 file2 parentDir st =
      Except.ok
        ({ st with allDiffs := dictSet st.allDiffs parentDir [pairStr file1 file2] },
          some parentDir, [pairStr file1 file2]) := by
  simp only [compare_files_recursive]
  rw [if_pos hext, if_neg himg, if_pos htxt]
  have hcef : can_extract_further [pairStr file1 file2] = [] := by
    simp [can_extract_further, word0_pairStr _ _ hsp, hnx]
  simp [cfrTail, hcef, pySetDiff_nil, pySetDiff_single_nil]

/-- C2 witness: a text-classified `.prop` pair is Terminal with one leaf. -/
theorem c2_plain_text_terminal_witness :
    compare_files_recursive envC2 1 ("/t/cfg.prop".data) ("/u/cfg.prop".data)
        ("SYSTEM/cfg.prop".data) ⟨[], []⟩ =
      Except.ok
        (⟨dictSet [] ("SYSTEM/cfg.prop".data)
            [pairStr ("/t/cfg.prop".data) ("/u/cfg.prop".data)], []⟩,
          some ("SYSTEM/cfg.prop".data),
          [pairStr ("/t/cfg.prop".data) ("/u/cfg.prop".data)]) :=
  c2_plain_text_terminal envC2 0 _ _ _ _ (by decide) (by decide) rfl (by decide) (by decide)

/-- The characters after the last `/` of a string (the whole string when no
`/` occurs). -/
def afterLastSlash : Str → Str
  | [] => []
  | c :: rest =>
    if '/' ∈ rest then afterLastSlash rest
    else if c = '/' then rest else c :: rest

/-- The characters before the last `/` of a string. -/
def beforeLastSlash : Str → Str
  | [] => []
  | c :: rest => if '/' ∈ rest then c :: beforeLastSlash rest else []

theorem rfindChar_neg (ch : Char) (s : Str) (h : ch ∉ s) : rfindChar ch s = -1 := by
  induction s with
  | nil => rfl
  | cons c rest ih =>
    have hc : c ≠ ch := fun e => h (e ▸ List.mem_cons_self c rest)
    have hrest : ch ∉ rest := fun m => h (List.mem_cons_of_mem c m)
    simp [rfindChar, ih hrest, hc]

theorem rfindChar_nonneg (ch : Char) (s : Str) (h : ch ∈ s) : 0 ≤ rfindChar ch s := by
  induction s with
  | nil => cases h
  | cons c rest ih =>
    rw [rfindChar]
    by_cases hr : ch ∈ rest
    · have h0 := ih hr
      rw [if_pos h0]
      omega
    · have hc : c = ch := by
        rcases List.mem_cons.mp h with h1 | h2
        · exact h1.symm
        · exact absurd h2 hr
      rw [rfindChar_neg ch rest hr]
      simp [hc]

theorem pySliceFrom_rfind (s : Str) (h : '/' ∈ s) :
    pySliceFrom s (rfindChar '/' s + 1) = afterLastSlash s := by
  induction s with
  | nil => cases h
  | cons c rest ih =>
    by_cases hr : '/' ∈ rest
    · have h0 : 0 ≤ rfindChar '/' rest := rfindChar_nonneg _ _ hr
      have e : rfindChar '/' (c :: rest) = rfindChar '/' rest + 1 := by
        rw [rfindChar, if_pos h0]
      rw [e]
      have e2 : pySliceFrom (c :: rest) (rfindChar '/' rest + 1 + 1) =
          pySliceFrom rest (rfindChar '/' rest + 1) := by
        simp only [pySliceFrom]
        rw [if_neg (by omega), if_neg (by omega)]
        have e3 : (rfindChar '/' rest + 1 + 1).toNat = (rfindChar '/' rest + 1).toNat + 1 := by
          omega
        rw [e3, List.drop_succ_cons]
      rw [e2, ih hr, afterLastSlash, if_pos hr]
    · have hc : c = '/' := by
        rcases List.mem_cons.mp h with h1 | h2
        · exact h1.symm
        · exact absurd h2 hr
      have e : rfindChar '/' (c :: rest) = 0 := by
        rw [rfindChar, if_neg (by rw [rfindChar_neg _ _ hr]; omega), if_pos hc]
      rw [e]
      simp [pySliceFrom, afterLastSlash, hr, hc]

theorem pySliceTo_rfind (s : Str) (h : '/' ∈ s) :
    pySliceTo s (rfindChar '/' s) = beforeLastSlash s := by
  induction s with
  | nil => cases h
  | cons c rest ih =>
    by_cases hr : '/' ∈ rest
    · have h0 : 0 ≤ rfindChar '/' rest := rfindChar_nonneg _ _ hr
      have e : rfindChar '/' (c :: rest) = rfindChar '/' rest + 1 := by
        rw [rfindChar, if_pos h0]
      rw [e]
      have e2 : pySliceTo (c :: rest) (rfindChar '/' rest + 1) =
          c :: pySliceTo rest (rfindChar '/' rest) := by
        simp only [pySliceTo]
        rw [if_neg (by omega), if_neg (by omega)]
        have e3 : (rfindChar '/' rest + 1).toNat = (rfindChar '/' rest).toNat + 1 := by
          omega
        rw [e3, List.take_succ_cons]
      rw [e2, ih hr, beforeLastSlash, if_pos hr]
    · have hc : c = '/' := by
        rcases List.mem_cons.mp h with h1 | h2
        · exact h1.symm
        · exact absurd h2 hr
      have e : rfindChar '/' (c :: rest) = 0 := by
        rw [rfindChar, if_neg (by rw [rfindChar_neg _ _ hr]; omega), if_pos hc]
      rw [e]
      simp [pySliceTo, beforeLastSlash, hr]

/-- C7: for a logical parent path containing a `/`, `get_new_parent_dir`
splices the resolved relative name onto the parent's directory portion when
the parent's final segment occurs inside the relative name, and otherwise
appends the bare filename onto the unchanged parent. -/
theorem c7_get_new_parent_dir_spec (cfg : Config) (p c : Str) (h : '/' ∈ c) :
    get_new_parent_dir cfg p c =
      if isSubstr (afterLastSlash c) (get_relative_path cfg p) then
        beforeLastSlash c ++ '/' :: get_relative_path cfg p
      else c ++ '/' :: get_filename p := by
  simp only [get_new_parent_dir]
  rw [pySliceFrom_rfind c h, pySliceTo_rfind c h]

/-- C7 witness: a staging path for an extracted `boot.img` member splices
onto the image's logical directory. -/
theorem c7_get_new_parent_dir_spec_witness :
    '/' ∈ ("IMAGES/boot.img".data : Str) ∧
    get_new_parent_dir cfgA ("/tmp/comparison/imgs/boot.img/A.zip/init".data)
        ("IMAGES/boot.img".data) =
      if isSubstr (afterLastSlash ("IMAGES/boot.img".data))
          (get_relative_path cfgA ("/tmp/comparison/imgs/boot.img/A.zip/init".data)) then
        beforeLastSlash ("IMAGES/boot.img".data) ++ '/' ::
          get_relative_path cfgA ("/tmp/comparison/imgs/boot.img/A.zip/init".data)
      else ("IMAGES/boot.img".data : Str) ++ '/' ::
        get_filename ("/tmp/comparison/imgs/boot.img/A.zip/init".data) :=
  ⟨by decide, c7_get_new_parent_dir_spec cfgA _ _ (by decide)⟩

/-- Lexicographic string comparison as a relation, for sortedness. -/
abbrev sLE (a b : Str) : Prop := strLe a b = true

theorem strLe_total (a : Str) : ∀ b, strLe a b = true ∨ strLe b a = true := by
  induction a with
  | nil => intro b; left; rfl
  | cons x xs ih =>
    intro b
    cases b with
    | nil => right; rfl
    | cons y ys =>
      by_cases hxy : x = y
      · subst hxy
        rcases ih ys with h | h
        · left; simpa [strLe] using h
        · right; simpa [strLe] using h
      · rcases lt_trichotomy x y with hlt | heq | hgt
        · left; simp [strLe, hxy, hlt]
        · exact absurd heq hxy
        · right; simp [strLe, Ne.symm hxy, hgt]

theorem strLe_antisymm (a : Str) : ∀ b, strLe a b = true → strLe b a = true → a = b := by
  induction a with
  | nil =>
    intro b h1 h2
    cases b with
    | nil => rfl
    | cons y ys => simp [strLe] at h2
  | cons x xs ih =>
    intro b h1 h2
    cases b with
    | nil => simp [strLe] at h1
    | cons y ys =>
      by_cases hxy : x = y
      · subst hxy
        simp only [strLe, if_pos rfl] at h1 h2
        rw [ih ys h1 h2]
      · simp only [strLe, if_neg hxy, if_neg (Ne.symm hxy)] at h1 h2
        have hl1 : x < y := of_decide_eq_true h1
        have hl2 : y < x := of_decide_eq_true h2
        exact absurd hl1 (asymm hl2)

theorem strLe_trans (a : Str) : ∀ b c, strLe a b = true → strLe b c = true →
    strLe a c = true := by
  induction a with
  | nil => intro b c _ _; rfl
  | cons x xs ih =>
    intro b c h1 h2
    cases b with
    | nil => simp [strLe] at h1
    | cons y ys =>
      cases c with
      | nil => simp [strLe] at h2
      | cons z zs =>
        by_cases hxy : x = y
        · subst hxy
          simp only [strLe, if_pos rfl] at h1
          by_cases hyz : x = z
          · subst hyz
            simp only [strLe, if_pos rfl] at h2 ⊢
            exact ih ys zs h1 h2
          · simp only [strLe, if_neg hyz] at h2 ⊢
            exact h2
        · simp only [strLe, if_neg hxy] at h1
          have hl1 : x < y := of_decide_eq_true h1
          by_cases hyz : y = z
          · subst hyz
            simp only [strLe, if_neg hxy]
            exact decide_eq_true hl1
          · simp only [strLe, if_neg hyz] at h2
            have hl2 : y < z := of_decide_eq_true h2
            have hxz : x < z := lt_trans hl1 hl2
            simp only [strLe, if_neg (ne_of_lt hxz)]
            exact decide_eq_true hxz

instance : IsAntisymm Str sLE := ⟨fun a b h1 h2 => strLe_antisymm a b h1 h2⟩

theorem mem_insertSorted {x z : Str} {l : List Str} :
    z ∈ insertSorted x l ↔ z = x ∨ z ∈ l := by
  induction l with
  | nil => simp [insertSorted]
  | cons y ys ih =>
    by_cases h : strLe x y = true
    · simp [insertSorted, h]
    · simp only [insertSorted, h, Bool.false_eq_true, if_false, List.mem_cons, ih]
      tauto

theorem sorted_insertSorted (x : Str) (l : List Str) (h : List.Sorted sLE l) :
    List.Sorted sLE (insertSorted x l) := by
  induction l with
  | nil => simp [insertSorted]
  | cons y ys ih =>
    rw [List.sorted_cons] at h
    obtain ⟨hy, hys⟩ := h
    by_cases hxy : strLe x y = true
    · rw [insertSorted, if_pos hxy, List.sorted_cons]
      refine ⟨?_, by rw [List.sorted_cons]; exact ⟨hy, hys⟩⟩
      intro b hb
      rcases List.mem_cons.mp hb with rfl | hbys
      · exact hxy
      · exact strLe_trans x y b hxy (hy b hbys)
    · rw [insertSorted, if_neg hxy, List.sorted_cons]
      refine ⟨?_, ih hys⟩
      intro b hb
      rcases mem_insertSorted.mp hb with hbx | hbys
      · rw [hbx]
        rcases strLe_total x y with htot | htot
        · exact absurd htot hxy
        · exact htot
      · exact hy b hbys

theorem perm_insertSorted (x : Str) (l : List Str) :
    List.Perm (insertSorted x l) (x :: l) := by
  induction l with
  | nil => exact List.Perm.refl _
  | cons y ys ih =>
    by_cases h : strLe x y = true
    · rw [insertSorted, if_pos h]
    · rw [insertSorted, if_neg h]
      exact List.Perm.trans (List.Perm.cons y ih) (List.Perm.swap x y ys)

theorem pySort_sorted (l : List Str) : List.Sorted sLE (pySort l) := by
  induction l with
  | nil => simp [pySort]
  | cons x xs ih => exact sorted_insertSorted x (pySort xs) ih

theorem pySort_perm (l : List Str) : List.Perm (pySort l) l := by
  induction l with
  | nil => exact List.Perm.refl _
  | cons x xs ih =>
    exact List.Perm.trans (perm_insertSorted x (pySort xs)) (List.Perm.cons x ih)

theorem pySort_eq_of_perm (l1 l2 : List Str) (h : List.Perm l1 l2) :
    pySort l1 = pySort l2 :=
  List.eq_of_perm_of_sorted
    (List.Perm.trans (pySort_perm l1) (List.Perm.trans h (pySort_perm l2).symm))
    (pySort_sorted l1) (pySort_sorted l2)

/-- C9: `sort_files` is permutation-invariant: when the two files' line
sequences are permutations of each other, the contents written back to the
two files are byte-identical — so a diff of the two rewritten files, being a
function of those contents, is the same as for the unpermuted version. -/
theorem c9_sort_files_perm_invariant (content1 content2 : Str)
    (h : List.Perm (readlines content1) (readlines content2)) :
    (sort_files content1 content2).1 = (sort_files content1 content2).2 := by
  simp only [sort_files]
  rw [pySort_eq_of_perm _ _ h]

/-- C9 witness: two two-line files with swapped lines sort identically. -/
theorem c9_sort_files_perm_invariant_witness :
    List.Perm (readlines ("b\na\n".data)) (readlines ("a\nb\n".data)) ∧
    (sort_files ("b\na\n".data) ("a\nb\n".data)).1 =
      (sort_files ("b\na\n".data) ("a\nb\n".data)).2 := by
  have hperm : List.Perm (readlines ("b\na\n".data)) (readlines ("a\nb\n".data)) := by
    have e1 : readlines ("b\na\n".data) = ["b\n".data, "a\n".data] := rfl
    have e2 : readlines ("a\nb\n".data) = ["a\n".data, "b\n".data] := rfl
    rw [e1, e2]
    exact List.Perm.swap _ _ _
  exact ⟨hperm, c9_sort_files_perm_invariant _ _ hperm⟩

/-- C10 witness: `diff` exiting 1 returns normally, `cp` exiting 1 raises. -/
theorem c10_shell_success_criterion_witness :
    (run_shell_command ⟨fun _ => [], fun _ => some 1⟩ ("diff a b".data) []).1 =
      Except.ok ([], some 1) ∧
    (∃ e, (run_shell_command ⟨fun _ => [], fun _ => some 1⟩ ("cp a b".data) []).1 =
      Except.error e) :=
  ⟨c10_shell_success_criterion.2 ⟨fun _ => [], fun _ => some 1⟩ _ [] (by decide) rfl,
   (c10_shell_success_criterion.1 ⟨fun _ => [], fun _ => some 1⟩ ("cp a b".data) []).mpr
     ⟨1, rfl, fun h => absurd h (by decide), fun _ => by decide⟩⟩

end Catf
